import Mathlib

/-!
Verification of the motion, track, camera and particle subsystems of the
looping car-animation repository ("Tokyo Drive").  Numeric JavaScript values
are modelled as exact rationals where the code only performs field
arithmetic and comparisons, and as reals where trigonometry is involved.
The random values drawn by the particle system are modelled as an arbitrary
stream of rationals in [0, 1), matching the contract of Math.random().
-/

/-- The configured maximum speed, set in the Vehicle constructor
(`this.maxSpeed = 120`). -/
def maxSpeed : ℚ := 120

/-- The configured acceleration, set in the Vehicle constructor
(`this.acceleration = 0.5`). -/
def acceleration : ℚ := 1/2

/-- The mutable motion fields of the Vehicle class: `trackProgress`
(0 to 1 on the track) and `currentSpeed`, both initialised to 0 in the
constructor. -/
structure VehicleState where
  trackProgress : ℚ
  currentSpeed : ℚ
deriving DecidableEq, Repr

/-- The freshly constructed Vehicle: `this.trackProgress = 0;
this.currentSpeed = 0;`. -/
def Vehicle.new : VehicleState := ⟨0, 0⟩

/-- The speed update at the head of `Vehicle.updatePosition`:
`if (this.currentSpeed < this.maxSpeed) { this.currentSpeed += this.acceleration; }`.
Note the increment is not multiplied by `deltaTime`. -/
def nextSpeed (s : ℚ) : ℚ :=
  if s < maxSpeed then s + acceleration else s

/-- The progress update in `Vehicle.updatePosition`:
`const speedFactor = this.currentSpeed / 3600;`
`this.trackProgress += speedFactor * deltaTime * 2;`
`if (this.trackProgress > 1) { this.trackProgress -= 1; }`
applied after the speed has already been bumped by `nextSpeed`. -/
def nextProgress (p s dt : ℚ) : ℚ :=
  let speedFactor := s / 3600
  let p2 := p + speedFactor * dt * 2
  if p2 > 1 then p2 - 1 else p2

/-- The state transition of `Vehicle.updatePosition(track, deltaTime)`
restricted to the two mutable motion fields (the remaining statements only
derive the mesh pose from the track, modelled separately below). -/
def updatePosition (st : VehicleState) (dt : ℚ) : VehicleState :=
  let s := nextSpeed st.currentSpeed
  ⟨nextProgress st.trackProgress s dt, s⟩

/-- `Vehicle.getSpeed()` returns `this.currentSpeed`. -/
def getSpeed (st : VehicleState) : ℚ := st.currentSpeed

/-- Folding `Vehicle.updatePosition` over a list of per-frame `deltaTime`
values, one call per frame. -/
def runUpdates (st : VehicleState) : List ℚ → VehicleState
  | [] => st
  | dt :: rest => runUpdates (updatePosition st dt) rest

/-- The SceneManager fields relevant to stopping and starting: the owned
Vehicle and the `isRunning` flag (`SceneManager.start` sets it true,
`SceneManager.stop` sets it false, neither touches the vehicle). -/
structure SceneState where
  vehicle : VehicleState
  isRunning : Bool
deriving DecidableEq, Repr

/-- The TokyoDriveApp fields relevant to stopping and starting: the
optional SceneManager (`this.sceneManager = null` initially) and the
`isPlaying` flag. -/
structure AppState where
  sceneManager : Option SceneState
  isPlaying : Bool
deriving DecidableEq, Repr

/-- The app right after construction: no SceneManager, not playing. -/
def AppState.initial : AppState := ⟨none, false⟩

/-- The external events that drive the app: the Start and Stop buttons
(`onStartClick` / `onStopClick`), one animation frame with its
`deltaTime`, and the two `visibilitychange` transitions. -/
inductive AppEvent where
  | startClick
  | stopClick
  | frame (dt : ℚ)
  | visibilityHidden
  | visibilityShown
deriving DecidableEq, Repr

/-- The app transition function, from `main.js` and `scene.js`:
`onStartClick` constructs the SceneManager when absent and then always
calls `load()`, which assigns `this.vehicle = new Vehicle(this.scene)`
(progress 0, speed 0), then `start()` (isRunning := true) and
`isPlaying = true`.  `onStopClick` calls `stop()` (isRunning := false)
and clears `isPlaying`.  A frame advances the vehicle only while
`isRunning`.  The `visibilitychange` handler, guarded by `app.isPlaying`,
calls `stop()` when hidden and `start()` when shown, without reloading. -/
def appStep (st : AppState) : AppEvent → AppState
  | .startClick =>
      { sceneManager := some ⟨Vehicle.new, true⟩, isPlaying := true }
  | .stopClick =>
      { sceneManager := st.sceneManager.map (fun sm => ⟨sm.vehicle, false⟩),
        isPlaying := false }
  | .frame dt =>
      { sceneManager := st.sceneManager.map
          (fun sm => if sm.isRunning then ⟨updatePosition sm.vehicle dt, true⟩ else sm),
        isPlaying := st.isPlaying }
  | .visibilityHidden =>
      if st.isPlaying then
        { sceneManager := st.sceneManager.map (fun sm => ⟨sm.vehicle, false⟩),
          isPlaying := st.isPlaying }
      else st
  | .visibilityShown =>
      if st.isPlaying then
        { sceneManager := st.sceneManager.map (fun sm => ⟨sm.vehicle, true⟩),
          isPlaying := st.isPlaying }
      else st

/-- Folding `appStep` over a sequence of events. -/
def appRun (st : AppState) : List AppEvent → AppState
  | [] => st
  | e :: rest => appRun (appStep st e) rest

/-- A 3-component real vector (THREE.Vector3). -/
@[ext] structure Vec3 where
  x : ℝ
  y : ℝ
  z : ℝ

/-- JavaScript remainder `t % 1`: the fractional part for non-negative
`t`, and the negated fractional part of `-t` for negative `t` (JS `%`
keeps the dividend's sign). -/
noncomputable def jsRem (t : ℝ) : ℝ :=
  if 0 ≤ t then Int.fract t else -(Int.fract (-t))

/-- The THREE.CatmullRomCurve3 held in `Track.path`, kept abstract: the
curve library is outside this repository, so its two sampling primitives
are arbitrary functions of the curve parameter. -/
structure PathCurve where
  getPointAt : ℝ → Vec3
  getTangentAt : ℝ → Vec3

/-- The Track class, reduced to the `path` field its sampling methods
read. -/
structure TrackState where
  path : PathCurve

/-- `Track.getPositionAt(t)`: `return this.path.getPointAt(t % 1);`. -/
noncomputable def TrackState.getPositionAt (tr : TrackState) (t : ℝ) : Vec3 :=
  tr.path.getPointAt (jsRem t)

/-- `Track.getTangentAt(t)`: `return this.path.getTangentAt(t % 1);`. -/
noncomputable def TrackState.getTangentAt (tr : TrackState) (t : ℝ) : Vec3 :=
  tr.path.getTangentAt (jsRem t)

/-- A concrete stand-in for the library curve (a straight parameter line),
used to exhibit that the `% 1` wrapper hands the curve two different
parameters for `t` and `t + 1` when `t` is negative. -/
noncomputable def lineCurve : PathCurve :=
  ⟨fun v => ⟨v, 0, 0⟩, fun v => ⟨v, 0, 0⟩⟩

/-- A track whose path is the straight stand-in curve. -/
noncomputable def lineTrack : TrackState := ⟨lineCurve⟩

/-- Math.atan2(y, x), modelled as the argument of the complex number
`x + y i` (in `(-π, π]`, with `atan2 0 0 = 0`, as in JavaScript). -/
noncomputable def atan2 (y x : ℝ) : ℝ := Complex.arg ⟨x, y⟩

/-- The heading computed in `src/js/vehicle.js` `updatePosition`:
`const angle = Math.atan2(tangent.z, tangent.x) + Math.PI;`. -/
noncomputable def headingA (tangent : Vec3) : ℝ :=
  atan2 tangent.z tangent.x + Real.pi

/-- The heading computed in the other Vehicle implementation
(`src/unnamed/part_001`): `const angle = Math.atan2(-tangent.z, tangent.x);`. -/
noncomputable def headingB (tangent : Vec3) : ℝ :=
  atan2 (-tangent.z) tangent.x

/-- Camera constant `cameraOffsetX = -0.5` in `SceneManager.updateCamera`. -/
noncomputable def cameraOffsetX : ℝ := -(1/2)

/-- Camera constant `cameraOffsetY = 1.4` (eye level) in
`SceneManager.updateCamera`. -/
noncomputable def cameraOffsetY : ℝ := 7/5

/-- Camera constant `cameraOffsetZ = 0.3` in `SceneManager.updateCamera`. -/
noncomputable def cameraOffsetZ : ℝ := 3/10

/-- Camera constant `lookDistance = 30` in `SceneManager.updateCamera`. -/
noncomputable def lookDistance : ℝ := 30

/-- The camera pose written by `SceneManager.updateCamera`: its position,
its up vector, and the point passed to `lookAt`. -/
structure CameraPose where
  position : Vec3
  up : Vec3
  lookTarget : Vec3

/-- `SceneManager.updateCamera`, as a function of the vehicle position
`p` (`vehicleGroup.position`) and heading `angle`
(`vehicleGroup.rotation.y`): rotates the fixed seat offset by the heading,
pins up to world-up, and looks at a point `lookDistance` ahead at eye
level. -/
noncomputable def updateCamera (p : Vec3) (angle : ℝ) : CameraPose :=
  let cosAngle := Real.cos angle
  let sinAngle := Real.sin angle
  let rotatedX := cameraOffsetX * cosAngle - cameraOffsetZ * sinAngle
  let rotatedZ := cameraOffsetX * sinAngle + cameraOffsetZ * cosAngle
  { position := ⟨p.x + rotatedX, p.y + cameraOffsetY, p.z + rotatedZ⟩
    up := ⟨0, 1, 0⟩
    lookTarget := ⟨p.x + Real.cos angle * lookDistance,
                   p.y + cameraOffsetY,
                   p.z + Real.sin angle * lookDistance⟩ }

/-- The horizontal unit vector at heading angle `θ`, the direction the
camera code projects ahead along (`(cos θ, 0, sin θ)`). -/
noncomputable def headingUnit (θ : ℝ) : Vec3 := ⟨Real.cos θ, 0, Real.sin θ⟩

/-- The fixed particle pool size in `Effects.createParticleSystem`:
`const particleCount = 1000;` (flat position array of length 3000). -/
def particleCount : ℕ := 1000

/-- The loop body of `Effects.updateParticles` over the flat position
array (`for (let i = 0; i < positions.length; i += 3)`), with `k = i / 3`
the particle index: z at `i + 2` advances by
`velocities[i / 3] * speedFactor * deltaTime * 100`, and a particle whose
new z exceeds 10 is respawned at
`((Math.random() - 0.5) * 50, (Math.random() - 0.5) * 30, -100)`.
`rand k` supplies the two `Math.random()` draws used if particle `k`
respawns; an out-of-range read returns the junk default 0 (the checked
variant below returns `none` instead). -/
def updateLoop (speedFactor dt : ℚ) (rand : ℕ → ℚ × ℚ) (velocities : List ℚ) :
    ℕ → List ℚ → List ℚ
  | k, px :: py :: pz :: rest =>
      let z := pz + velocities.getD k 0 * speedFactor * dt * 100
      (if z > 10 then [((rand k).1 - 1/2) * 50, ((rand k).2 - 1/2) * 30, -100]
       else [px, py, z]) ++ updateLoop speedFactor dt rand velocities (k + 1) rest
  | _, rest => rest

/-- `Effects.updateParticles(speed, deltaTime)` on the flat arrays:
`const speedFactor = speed / 50;` then the loop above from index 0. -/
def updateParticles (speed dt : ℚ) (rand : ℕ → ℚ × ℚ)
    (positions velocities : List ℚ) : List ℚ :=
  updateLoop (speed / 50) dt rand velocities 0 positions

/-- The material opacity set at the end of `Effects.updateParticles`:
`Math.min(0.8, speedFactor * 0.5)`. -/
def particleOpacity (speed : ℚ) : ℚ := min (4/5) (speed / 50 * (1/2))

/-- Bounds-checked variant of the particle loop: each `velocities` read
uses `get?`, and a trailing group of fewer than three position entries —
which would make the source loop read past the array — yields `none`. -/
def updateLoopChecked (speedFactor dt : ℚ) (rand : ℕ → ℚ × ℚ) (velocities : List ℚ) :
    ℕ → List ℚ → Option (List ℚ)
  | _, [] => some []
  | k, px :: py :: pz :: rest => do
      let v ← velocities.get? k
      let z := pz + v * speedFactor * dt * 100
      let tail ← updateLoopChecked speedFactor dt rand velocities (k + 1) rest
      some ((if z > 10 then [((rand k).1 - 1/2) * 50, ((rand k).2 - 1/2) * 30, -100]
             else [px, py, z]) ++ tail)
  | _, _ => none

/-- Checked variant of `updateParticles`: additionally guards the divisor
of `speedFactor = speed / 50`. -/
def updateParticlesChecked (speed dt : ℚ) (rand : ℕ → ℚ × ℚ)
    (positions velocities : List ℚ) : Option (List ℚ) :=
  if (50 : ℚ) = 0 then none
  else updateLoopChecked (speed / 50) dt rand velocities 0 positions

/-- Checked variant of the `updatePosition` motion update: guards the
divisor of `speedFactor = this.currentSpeed / 3600` (the only division in
the function). -/
def updatePositionChecked (st : VehicleState) (dt : ℚ) : Option VehicleState :=
  if (3600 : ℚ) = 0 then none
  else some (updatePosition st dt)

/-- Unfolding lemma: `nextProgress` with the `let` bindings inlined. -/
theorem nextProgress_eq (p s dt : ℚ) :
    nextProgress p s dt =
      if p + s / 3600 * dt * 2 > 1
      then p + s / 3600 * dt * 2 - 1
      else p + s / 3600 * dt * 2 := rfl

/-- Unfolding lemma: the speed component of one update. -/
theorem updatePosition_speed_eq (st : VehicleState) (dt : ℚ) :
    (updatePosition st dt).currentSpeed = nextSpeed st.currentSpeed := rfl

/-- Unfolding lemma: the progress component of one update. -/
theorem updatePosition_progress_eq (st : VehicleState) (dt : ℚ) :
    (updatePosition st dt).trackProgress =
      nextProgress st.trackProgress (nextSpeed st.currentSpeed) dt := rfl

/-- Helper: the speed after a run from speed `min maxSpeed (k/2)` stays in
the same closed form, with the frame count added to `k`. -/
theorem runUpdates_speed_min (dts : List ℚ) : ∀ (k : ℕ) (st : VehicleState),
    st.currentSpeed = min maxSpeed (k / 2) →
    (runUpdates st dts).currentSpeed = min maxSpeed ((k + dts.length) / 2) := by
  induction dts with
  | nil => intro k st h; simpa using h
  | cons dt rest ih =>
    intro k st h
    have hstep : (updatePosition st dt).currentSpeed = min maxSpeed ((k + 1 : ℕ) / 2) := by
      rw [updatePosition_speed_eq, h]
      unfold nextSpeed maxSpeed acceleration
      rcases lt_or_le ((k : ℚ) / 2) 120 with hk | hk
      · have hkn : k < 240 := by exact_mod_cast (by linarith : (k : ℚ) < 240)
        have hk239 : (k : ℚ) ≤ 239 := by exact_mod_cast Nat.lt_succ_iff.mp hkn
        rw [min_eq_right hk.le, if_pos hk, min_eq_right (by push_cast; linarith)]
        push_cast; ring
      · rw [min_eq_left hk, if_neg (lt_irrefl _), min_eq_left (by push_cast; linarith)]
    have hrec := ih (k + 1) (updatePosition st dt) hstep
    have hcons : runUpdates st (dt :: rest) = runUpdates (updatePosition st dt) rest := rfl
    rw [hcons, hrec]
    congr 1
    rw [List.length_cons]
    push_cast
    ring

/-- Helper: closed form for the speed of a run that starts at speed 0:
after `N` frames the speed is `min 120 (N/2)`, whatever the frame
durations were. -/
theorem runUpdates_speed_closed (p0 : ℚ) (dts : List ℚ) :
    (runUpdates ⟨p0, 0⟩ dts).currentSpeed = min maxSpeed (dts.length / 2) := by
  have h0 : (VehicleState.mk p0 0).currentSpeed = min maxSpeed (((0 : ℕ) : ℚ) / 2) := by
    show (0 : ℚ) = _
    rw [show (((0 : ℕ) : ℚ)) / 2 = 0 by norm_num,
      min_eq_right (by norm_num [maxSpeed])]
  have := runUpdates_speed_min dts 0 ⟨p0, 0⟩ h0
  simpa using this

/-- C1 counterexample: at current speed 0 and `deltaTime = 2`, the code
yields speed `0.5`, while `min(maxSpeed, s + acceleration * dt)` would be
`1`; the per-frame increment is not scaled by the frame's dt. -/
theorem updatePosition_speed_not_dt_scaled :
    ¬ ((updatePosition ⟨0, 0⟩ 2).currentSpeed
        = min maxSpeed (0 + acceleration * 2)) := by
  rw [updatePosition_speed_eq]
  show ¬ (nextSpeed 0 = _)
  rw [show nextSpeed 0 = 1/2 by norm_num [nextSpeed, maxSpeed, acceleration],
    show (0 : ℚ) + acceleration * 2 = 1 by norm_num [acceleration],
    min_eq_right (by norm_num [maxSpeed])]
  norm_num

/-- C1 (amended): after `Vehicle.updatePosition(track, deltaTime)` with
current speed `s`, the speed equals `s + acceleration` when `s < maxSpeed`
and `s` otherwise; the constant acceleration 0.5 is added once per call,
independent of `deltaTime`, with no `min` clamp applied. -/
theorem updatePosition_speed_step (st : VehicleState) (dt : ℚ) :
    (updatePosition st dt).currentSpeed =
      if st.currentSpeed < maxSpeed
      then st.currentSpeed + acceleration
      else st.currentSpeed := by
  rfl

/-- C3 counterexample: from `trackProgress = 0`, `currentSpeed = 120` (both
within the claimed ranges) and `deltaTime = 60 ≥ 0`, one call of
`Vehicle.updatePosition` leaves `trackProgress = 3`, outside `[0, 1)`: the
code subtracts 1 at most once instead of reducing modulo 1. -/
theorem updatePosition_progress_escapes_unit_interval :
    0 ≤ (0 : ℚ) ∧ (0 : ℚ) < 1 ∧ 0 ≤ (120 : ℚ) ∧ (120 : ℚ) ≤ maxSpeed
      ∧ 0 ≤ (60 : ℚ)
      ∧ (updatePosition ⟨0, 120⟩ 60).trackProgress = 3
      ∧ ¬ ((updatePosition ⟨0, 120⟩ 60).trackProgress < 1) := by
  have hp : (updatePosition ⟨0, 120⟩ 60).trackProgress = 3 := by
    rw [updatePosition_progress_eq]
    show nextProgress 0 (nextSpeed 120) 60 = 3
    rw [show nextSpeed 120 = 120 by norm_num [nextSpeed, maxSpeed], nextProgress_eq]
    norm_num
  refine ⟨by norm_num, by norm_num, by norm_num, by norm_num [maxSpeed],
    by norm_num, hp, by rw [hp]; norm_num⟩

/-- C3 (amended): for starting `trackProgress ∈ [0,1)`, speed in
`[0, maxSpeed]` and `deltaTime ≥ 0`, the progress after one
`Vehicle.updatePosition` call lies in `[0,1)` provided the frame's advance
`a = (nextSpeed s)/3600 * dt * 2` keeps `p + a` below 2 and away from
exactly 1 (the code tests `> 1` strictly and subtracts 1 only once, so
`p + a = 1` lands on 1 and `p + a ≥ 2` stays at or above 1). -/
theorem updatePosition_progress_mem_Ico (st : VehicleState) (dt : ℚ)
    (hp0 : 0 ≤ st.trackProgress) (hp1 : st.trackProgress < 1)
    (hs0 : 0 ≤ st.currentSpeed) (hs1 : st.currentSpeed ≤ maxSpeed)
    (hdt : 0 ≤ dt)
    (hlt : st.trackProgress + nextSpeed st.currentSpeed / 3600 * dt * 2 < 2)
    (hne : st.trackProgress + nextSpeed st.currentSpeed / 3600 * dt * 2 ≠ 1) :
    0 ≤ (updatePosition st dt).trackProgress
      ∧ (updatePosition st dt).trackProgress < 1 := by
  have hsp : 0 ≤ nextSpeed st.currentSpeed := by
    unfold nextSpeed acceleration
    split <;> linarith
  have ha : 0 ≤ nextSpeed st.currentSpeed / 3600 * dt * 2 := by positivity
  rw [updatePosition_progress_eq, nextProgress_eq]
  by_cases hgt : st.trackProgress + nextSpeed st.currentSpeed / 3600 * dt * 2 > 1
  · rw [if_pos hgt]
    exact ⟨by linarith, by linarith⟩
  · rw [if_neg hgt]
    refine ⟨by linarith, ?_⟩
    rcases lt_or_eq_of_le (not_lt.mp hgt) with h | h
    · exact h
    · exact absurd h hne

/-- C3 witness: the amended statement instantiated at progress 0, speed 0
and `deltaTime = 1/60` (one 60 FPS frame). -/
theorem updatePosition_progress_mem_Ico_witness :
    0 ≤ (0 : ℚ) ∧ (0 : ℚ) < 1 ∧ 0 ≤ (0 : ℚ) ∧ (0 : ℚ) ≤ maxSpeed
      ∧ 0 ≤ (1/60 : ℚ)
      ∧ ((0 : ℚ) + nextSpeed 0 / 3600 * (1/60) * 2 < 2)
      ∧ ((0 : ℚ) + nextSpeed 0 / 3600 * (1/60) * 2 ≠ 1)
      ∧ (0 ≤ (updatePosition ⟨0, 0⟩ (1/60)).trackProgress
          ∧ (updatePosition ⟨0, 0⟩ (1/60)).trackProgress < 1) :=
  ⟨by norm_num, by norm_num, by norm_num, by norm_num [maxSpeed], by norm_num,
    by norm_num [nextSpeed, maxSpeed, acceleration],
    by norm_num [nextSpeed, maxSpeed, acceleration],
    updatePosition_progress_mem_Ico ⟨0, 0⟩ (1/60) (by norm_num) (by norm_num)
      (by norm_num) (by norm_num [maxSpeed]) (by norm_num)
      (by norm_num [nextSpeed, maxSpeed, acceleration])
      (by norm_num [nextSpeed, maxSpeed, acceleration])⟩

/-- C4: starting from `currentSpeed = 0`, across any sequence of
`Vehicle.updatePosition` calls and any further calls, the speed never
decreases, never exceeds the configured maximum 120, and once it equals
the maximum it stays exactly there. -/
theorem speed_monotone_bounded_absorbing (p0 : ℚ) (dts ext : List ℚ) :
    (runUpdates ⟨p0, 0⟩ dts).currentSpeed
        ≤ (runUpdates ⟨p0, 0⟩ (dts ++ ext)).currentSpeed
      ∧ (runUpdates ⟨p0, 0⟩ dts).currentSpeed ≤ maxSpeed
      ∧ ((runUpdates ⟨p0, 0⟩ dts).currentSpeed = maxSpeed →
          (runUpdates ⟨p0, 0⟩ (dts ++ ext)).currentSpeed = maxSpeed) := by
  have h1 := runUpdates_speed_closed p0 dts
  have h2 := runUpdates_speed_closed p0 (dts ++ ext)
  rw [List.length_append] at h2
  have hext : (0 : ℚ) ≤ (ext.length : ℚ) := by positivity
  have hlen : ((dts.length : ℕ) : ℚ) / 2 ≤ (((dts.length + ext.length : ℕ)) : ℚ) / 2 := by
    push_cast
    linarith
  refine ⟨?_, ?_, ?_⟩
  · rw [h1, h2]
    exact min_le_min le_rfl hlen
  · rw [h1]
    exact min_le_left _ _
  · intro hmax
    rw [h1] at hmax
    rw [h2]
    rcases min_cases maxSpeed (((dts.length : ℕ) : ℚ) / 2) with ⟨he, hle⟩ | ⟨he, hlt⟩
    · exact min_eq_left (by rw [he] at hmax; rw [← hmax] at hle; linarith)
    · rw [he] at hmax
      exact min_eq_left (by rw [hmax] at hlt; linarith [hlt.le])

/-- C10: for two frame-duration sequences of equal length `N` (all
durations positive), the speed after running `Vehicle.updatePosition` over
either sequence from speed 0 is identical and equals `min 120 (0.5 * N)`:
the speed trajectory depends only on the frame count. -/
theorem speed_depends_only_on_frame_count
    (p1 p2 : ℚ) (dts1 dts2 : List ℚ)
    (hlen : dts1.length = dts2.length)
    (hpos1 : ∀ d ∈ dts1, 0 < d) (hpos2 : ∀ d ∈ dts2, 0 < d) :
    (runUpdates ⟨p1, 0⟩ dts1).currentSpeed
        = (runUpdates ⟨p2, 0⟩ dts2).currentSpeed
      ∧ (runUpdates ⟨p1, 0⟩ dts1).currentSpeed
        = min 120 (acceleration * dts1.length) := by
  have h1 := runUpdates_speed_closed p1 dts1
  have h2 := runUpdates_speed_closed p2 dts2
  constructor
  · rw [h1, h2, hlen]
  · rw [h1]
    unfold maxSpeed acceleration
    congr 1
    ring

/-- C10 witness: the two runs `[1]` and `[2]` (one frame each, different
positive durations) give the same speed, `min 120 0.5 = 0.5`. -/
theorem speed_depends_only_on_frame_count_witness :
    ([(1 : ℚ)].length = [(2 : ℚ)].length)
      ∧ (∀ d ∈ [(1 : ℚ)], 0 < d) ∧ (∀ d ∈ [(2 : ℚ)], 0 < d)
      ∧ ((runUpdates ⟨0, 0⟩ [(1 : ℚ)]).currentSpeed
          = (runUpdates ⟨3, 0⟩ [(2 : ℚ)]).currentSpeed
        ∧ (runUpdates ⟨0, 0⟩ [(1 : ℚ)]).currentSpeed
          = min 120 (acceleration * [(1 : ℚ)].length)) :=
  ⟨by norm_num, by norm_num, by norm_num,
    speed_depends_only_on_frame_count 0 3 [1] [2] (by norm_num)
      (by norm_num) (by norm_num)⟩

/-- C2 counterexample: run Start, one frame of `deltaTime = 1`, Stop, then
Start again.  The motion state committed before the stop is
`(trackProgress, currentSpeed) = (1/3600, 1/2)`, but after the second
Start click the vehicle holds `(0, 0)`: `onStartClick` always re-runs
`load()`, which constructs a fresh Vehicle, so the Stop-button →
Start-button path resets the motion state instead of resuming it. -/
theorem stop_start_click_resets_motion :
    (appRun AppState.initial
        [.startClick, .frame 1, .stopClick]).sceneManager.map SceneState.vehicle
      = some ⟨1/3600, 1/2⟩
    ∧ (appRun AppState.initial
        [.startClick, .frame 1, .stopClick, .startClick]).sceneManager.map SceneState.vehicle
      = some ⟨0, 0⟩
    ∧ (VehicleState.mk 0 0) ≠ ⟨1/3600, 1/2⟩ := by
  have hup : updatePosition Vehicle.new 1 = ⟨1/3600, 1/2⟩ := by
    have hs : nextSpeed 0 = 1/2 := by norm_num [nextSpeed, maxSpeed, acceleration]
    show (⟨nextProgress 0 (nextSpeed 0) 1, nextSpeed 0⟩ : VehicleState) = _
    rw [hs, nextProgress_eq]
    norm_num
  refine ⟨?_, ?_, ?_⟩
  · show ((appStep (appStep (appStep AppState.initial .startClick) (.frame 1))
      .stopClick).sceneManager).map SceneState.vehicle = _
    simp [appStep, AppState.initial, hup]
  · rfl
  · intro h
    have := congrArg VehicleState.currentSpeed h
    norm_num at this

/-- C2 (amended): the resume-from-committed-state behaviour holds for the
visibilitychange stop/start path: if the app is playing, hiding the tab
(`SceneManager.stop`) and showing it again (`SceneManager.start`, with no
reload) leaves the vehicle's `trackProgress`/`currentSpeed` exactly as
last committed, and the loop is running again.  The Stop-button →
Start-button path instead re-runs `load()` and resets the vehicle. -/
theorem visibility_stop_start_resumes_motion (st : AppState)
    (h : st.isPlaying = true) :
    (appStep (appStep st .visibilityHidden) .visibilityShown).sceneManager.map
        SceneState.vehicle
      = st.sceneManager.map SceneState.vehicle
    ∧ (appStep (appStep st .visibilityHidden) .visibilityShown).sceneManager.map
        SceneState.isRunning
      = st.sceneManager.map (fun _ => true) := by
  cases hsm : st.sceneManager with
  | none => simp [appStep, h, hsm]
  | some sm => simp [appStep, h, hsm]

/-- C2 witness: the amended statement at a concrete playing state whose
vehicle has progress 5 and speed 60. -/
theorem visibility_stop_start_resumes_motion_witness :
    (AppState.mk (some ⟨⟨5, 60⟩, true⟩) true).isPlaying = true
    ∧ ((appStep (appStep (AppState.mk (some ⟨⟨5, 60⟩, true⟩) true)
          .visibilityHidden) .visibilityShown).sceneManager.map SceneState.vehicle
        = (AppState.mk (some ⟨⟨5, 60⟩, true⟩) true).sceneManager.map SceneState.vehicle
      ∧ (appStep (appStep (AppState.mk (some ⟨⟨5, 60⟩, true⟩) true)
          .visibilityHidden) .visibilityShown).sceneManager.map SceneState.isRunning
        = (AppState.mk (some ⟨⟨5, 60⟩, true⟩) true).sceneManager.map (fun _ => true)) :=
  ⟨rfl, visibility_stop_start_resumes_motion (AppState.mk (some ⟨⟨5, 60⟩, true⟩) true) rfl⟩

/-- C5 counterexample: at `t = -1/2` the claimed periodicity fails on the
modelled track: JS `%` sends `-1/2` to `-1/2` but `-1/2 + 1 = 1/2` to
`1/2`, so the curve is sampled at two different parameters and the
straight stand-in curve returns two different points. -/
theorem track_periodicity_fails_negative :
    lineTrack.getPositionAt (-(1/2)) ≠ lineTrack.getPositionAt (-(1/2) + 1) := by
  have harg : (-(1/2 : ℝ) + 1) = 1/2 := by ring
  rw [harg]
  have h1 : jsRem (-(1/2)) = -(1/2) := by
    unfold jsRem
    rw [if_neg (by norm_num), show -(-(1/2 : ℝ)) = 1/2 by ring,
      Int.fract_eq_self.mpr (by norm_num)]
  have h2 : jsRem (1/2) = 1/2 := by
    unfold jsRem
    rw [if_pos (by norm_num), Int.fract_eq_self.mpr (by norm_num)]
  unfold TrackState.getPositionAt lineTrack lineCurve
  rw [h1, h2]
  intro heq
  have := congrArg Vec3.x heq
  norm_num at this

/-- C5 (amended): for every non-negative `t`, `Track.getPositionAt` and
`Track.getTangentAt` agree at `t` and `t + 1`, for any underlying curve:
`t % 1` is 1-periodic on `[0, ∞)`.  For negative non-integer `t` the JS
remainder is negative and periodicity is not guaranteed. -/
theorem track_periodicity_nonneg (tr : TrackState) (t : ℝ) (h : 0 ≤ t) :
    tr.getPositionAt t = tr.getPositionAt (t + 1)
    ∧ tr.getTangentAt t = tr.getTangentAt (t + 1) := by
  have hrem : jsRem (t + 1) = jsRem t := by
    unfold jsRem
    rw [if_pos h, if_pos (by linarith)]
    exact Int.fract_add_one t
  unfold TrackState.getPositionAt TrackState.getTangentAt
  rw [hrem]
  exact ⟨rfl, rfl⟩

/-- C5 witness: the amended statement at the stand-in track and `t = 0`. -/
theorem track_periodicity_nonneg_witness :
    0 ≤ (0 : ℝ)
    ∧ (lineTrack.getPositionAt 0 = lineTrack.getPositionAt (0 + 1)
       ∧ lineTrack.getTangentAt 0 = lineTrack.getTangentAt (0 + 1)) :=
  ⟨le_refl 0, track_periodicity_nonneg lineTrack 0 (le_refl 0)⟩

/-- C6: for every vehicle position `p` and heading `θ`, the look-at
target computed in `SceneManager.updateCamera` is `p` displaced by
`lookDistance` times the heading unit vector in the horizontal plane,
with its `y` coordinate at `p.y + cameraOffsetY` (eye level); the heading
unit vector indeed has norm one. -/
theorem camera_look_target_ahead (p : Vec3) (θ : ℝ) :
    (updateCamera p θ).lookTarget.x = p.x + lookDistance * (headingUnit θ).x
    ∧ (updateCamera p θ).lookTarget.z = p.z + lookDistance * (headingUnit θ).z
    ∧ (updateCamera p θ).lookTarget.y = p.y + cameraOffsetY
    ∧ (headingUnit θ).x ^ 2 + (headingUnit θ).y ^ 2 + (headingUnit θ).z ^ 2 = 1 := by
  refine ⟨?_, ?_, rfl, ?_⟩
  · show p.x + Real.cos θ * lookDistance = p.x + lookDistance * Real.cos θ
    ring
  · show p.z + Real.sin θ * lookDistance = p.z + lookDistance * Real.sin θ
    ring
  · show Real.cos θ ^ 2 + (0 : ℝ) ^ 2 + Real.sin θ ^ 2 = 1
    have := Real.cos_sq_add_sin_sq θ
    linarith [sq_nonneg (0 : ℝ)]

/-- C7: wherever the tangent's horizontal projection is nonzero (and in
fact everywhere), the two observed heading conventions satisfy
`headingA = -headingB + π` up to an integer multiple of `2π`:
negating the z projection negates the `atan2` angle except on the
negative x-axis, where the two sides differ by exactly `2π`. -/
theorem heading_conventions_congruent (tg : Vec3)
    (h : (tg.x, tg.z) ≠ ((0 : ℝ), (0 : ℝ))) :
    ∃ k : ℤ, headingA tg = -headingB tg + Real.pi + 2 * Real.pi * k := by
  have hconj : (starRingEnd ℂ (⟨tg.x, tg.z⟩ : ℂ)) = ⟨tg.x, -tg.z⟩ := by
    apply Complex.ext <;> simp
  by_cases hpi : Complex.arg ⟨tg.x, tg.z⟩ = Real.pi
  · refine ⟨1, ?_⟩
    have hB : Complex.arg ⟨tg.x, -tg.z⟩ = Real.pi := by
      rw [← hconj, Complex.arg_conj, if_pos hpi]
    unfold headingA headingB atan2
    rw [hpi, hB]
    push_cast
    ring
  · refine ⟨0, ?_⟩
    have hB : Complex.arg ⟨tg.x, -tg.z⟩ = -Complex.arg ⟨tg.x, tg.z⟩ := by
      rw [← hconj, Complex.arg_conj, if_neg hpi]
    unfold headingA headingB atan2
    rw [hB]
    push_cast
    ring

/-- C7 witness: the congruence at the concrete tangent `(1, 0, 0)`. -/
theorem heading_conventions_congruent_witness :
    ((1 : ℝ), (0 : ℝ)) ≠ ((0 : ℝ), (0 : ℝ))
    ∧ ∃ k : ℤ, headingA ⟨1, 0, 0⟩ = -headingB ⟨1, 0, 0⟩ + Real.pi + 2 * Real.pi * k :=
  ⟨by simp, heading_conventions_congruent ⟨1, 0, 0⟩ (by simp)⟩

/-- Unfolding lemma: an empty position array is returned unchanged. -/
theorem updateLoop_nil (sf dt : ℚ) (rand : ℕ → ℚ × ℚ) (vel : List ℚ) (k : ℕ) :
    updateLoop sf dt rand vel k [] = [] := rfl

/-- Unfolding lemma: a trailing single entry is returned unchanged. -/
theorem updateLoop_one (sf dt : ℚ) (rand : ℕ → ℚ × ℚ) (vel : List ℚ) (k : ℕ) (a : ℚ) :
    updateLoop sf dt rand vel k [a] = [a] := rfl

/-- Unfolding lemma: a trailing pair of entries is returned unchanged. -/
theorem updateLoop_two (sf dt : ℚ) (rand : ℕ → ℚ × ℚ) (vel : List ℚ) (k : ℕ) (a b : ℚ) :
    updateLoop sf dt rand vel k [a, b] = [a, b] := rfl

/-- Unfolding lemma: one full particle step of the loop. -/
theorem updateLoop_cons3 (sf dt : ℚ) (rand : ℕ → ℚ × ℚ) (vel : List ℚ) (k : ℕ)
    (a b c : ℚ) (rest : List ℚ) :
    updateLoop sf dt rand vel k (a :: b :: c :: rest) =
      (if c + vel.getD k 0 * sf * dt * 100 > 10
       then [((rand k).1 - 1/2) * 50, ((rand k).2 - 1/2) * 30, -100]
       else [a, b, c + vel.getD k 0 * sf * dt * 100])
        ++ updateLoop sf dt rand vel (k + 1) rest := rfl

/-- Unfolding lemma: one full particle step of the checked loop. -/
theorem updateLoopChecked_cons3 (sf dt : ℚ) (rand : ℕ → ℚ × ℚ) (vel : List ℚ) (k : ℕ)
    (a b c : ℚ) (rest : List ℚ) :
    updateLoopChecked sf dt rand vel k (a :: b :: c :: rest) =
      (vel.get? k).bind (fun v =>
        (updateLoopChecked sf dt rand vel (k + 1) rest).bind (fun tail =>
          some ((if c + v * sf * dt * 100 > 10
                 then [((rand k).1 - 1/2) * 50, ((rand k).2 - 1/2) * 30, -100]
                 else [a, b, c + v * sf * dt * 100]) ++ tail))) := rfl

/-- Helper: reading a flat index three deeper skips one particle. -/
theorem getD_cons3 (x y z : ℚ) (l : List ℚ) (m : ℕ) :
    (x :: y :: z :: l).getD (m + 3) 0 = l.getD m 0 := rfl

/-- Helper: every z entry (flat index ≡ 2 mod 3) of the updated array is
at most 10: a particle is either respawned at z = -100 or keeps a z that
failed the `> 10` test. -/
theorem updateLoop_z_le_ten (sf dt : ℚ) (rand : ℕ → ℚ × ℚ) (vel : List ℚ) :
    ∀ (ps : List ℚ) (k j : ℕ), j % 3 = 2 →
      (updateLoop sf dt rand vel k ps).getD j 0 ≤ 10
  | [], k, j, h => by
      rw [updateLoop_nil]
      simp [List.getD]
  | [a], k, j, h => by
      rw [updateLoop_one]
      obtain ⟨m, rfl⟩ : ∃ m, j = m + 1 := ⟨j - 1, by omega⟩
      rw [List.getD_cons_succ]
      simp [List.getD]
  | [a, b], k, j, h => by
      rw [updateLoop_two]
      obtain ⟨m, rfl⟩ : ∃ m, j = m + 2 := ⟨j - 2, by omega⟩
      rw [show m + 2 = (m + 1) + 1 from rfl, List.getD_cons_succ, List.getD_cons_succ]
      simp [List.getD]
  | a :: b :: c :: rest, k, j, h => by
      rw [updateLoop_cons3]
      rcases Nat.lt_or_ge j 3 with hj | hj
      · have hj2 : j = 2 := by omega
        subst hj2
        by_cases hz : c + vel.getD k 0 * sf * dt * 100 > 10
        · rw [if_pos hz]
          simp only [List.cons_append, List.nil_append]
          show (-100 : ℚ) ≤ 10
          norm_num
        · rw [if_neg hz]
          simp only [List.cons_append, List.nil_append]
          show c + vel.getD k 0 * sf * dt * 100 ≤ 10
          exact not_lt.mp hz
      · obtain ⟨m, rfl⟩ : ∃ m, j = m + 3 := ⟨j - 3, by omega⟩
        have hm : m % 3 = 2 := by omega
        by_cases hz : c + vel.getD k 0 * sf * dt * 100 > 10
        · rw [if_pos hz]
          simp only [List.cons_append, List.nil_append]
          rw [getD_cons3]
          exact updateLoop_z_le_ten sf dt rand vel rest (k + 1) m hm
        · rw [if_neg hz]
          simp only [List.cons_append, List.nil_append]
          rw [getD_cons3]
          exact updateLoop_z_le_ten sf dt rand vel rest (k + 1) m hm

/-- Helper: a particle whose advanced z crosses the threshold is
respawned inside the spawn volume: x in [-25, 25], y in [-15, 15],
z = -100. -/
theorem updateLoop_respawn_bounds (sf dt : ℚ) (rand : ℕ → ℚ × ℚ) (vel : List ℚ)
    (hr : ∀ n, 0 ≤ (rand n).1 ∧ (rand n).1 < 1 ∧ 0 ≤ (rand n).2 ∧ (rand n).2 < 1) :
    ∀ (ps : List ℚ) (k0 m : ℕ), 3 * m + 2 < ps.length →
      10 < ps.getD (3 * m + 2) 0 + vel.getD (k0 + m) 0 * sf * dt * 100 →
      -25 ≤ (updateLoop sf dt rand vel k0 ps).getD (3 * m) 0
      ∧ (updateLoop sf dt rand vel k0 ps).getD (3 * m) 0 ≤ 25
      ∧ -15 ≤ (updateLoop sf dt rand vel k0 ps).getD (3 * m + 1) 0
      ∧ (updateLoop sf dt rand vel k0 ps).getD (3 * m + 1) 0 ≤ 15
      ∧ (updateLoop sf dt rand vel k0 ps).getD (3 * m + 2) 0 = -100
  | [], k0, m, hlen, _ => by simp at hlen
  | [a], k0, m, hlen, _ => by simp at hlen
  | [a, b], k0, m, hlen, _ => by simp at hlen
  | a :: b :: c :: rest, k0, m, hlen, hz => by
      rcases Nat.eq_zero_or_pos m with hm | hm
      · subst hm
        rw [updateLoop_cons3]
        have hz2 : c + vel.getD k0 0 * sf * dt * 100 > 10 := by
          have e2 : (a :: b :: c :: rest).getD (3 * 0 + 2) 0 = c := rfl
          have ev : k0 + 0 = k0 := rfl
          rw [e2, ev] at hz
          exact hz
        rw [if_pos hz2]
        simp only [List.cons_append, List.nil_append]
        obtain ⟨h1, h2, h3, h4⟩ := hr k0
        refine ⟨?_, ?_, ?_, ?_, ?_⟩
        · show -25 ≤ ((rand k0).1 - 1/2) * 50
          linarith
        · show ((rand k0).1 - 1/2) * 50 ≤ 25
          linarith
        · show -15 ≤ ((rand k0).2 - 1/2) * 30
          linarith
        · show ((rand k0).2 - 1/2) * 30 ≤ 15
          linarith
        · show (-100 : ℚ) = -100
          rfl
      · obtain ⟨m1, rfl⟩ : ∃ m1, m = m1 + 1 := ⟨m - 1, by omega⟩
        rw [updateLoop_cons3]
        have e0 : 3 * (m1 + 1) = (3 * m1) + 3 := by ring
        have e1 : 3 * (m1 + 1) + 1 = (3 * m1 + 1) + 3 := by ring
        have e2 : 3 * (m1 + 1) + 2 = (3 * m1 + 2) + 3 := by ring
        have ev : k0 + (m1 + 1) = (k0 + 1) + m1 := by ring
        have hlen2 : 3 * m1 + 2 < rest.length := by
          simp only [List.length_cons] at hlen
          omega
        have hz2 : 10 < rest.getD (3 * m1 + 2) 0
            + vel.getD ((k0 + 1) + m1) 0 * sf * dt * 100 := by
          rw [e2, getD_cons3, ev] at hz
          exact hz
        have IH := updateLoop_respawn_bounds sf dt rand vel hr rest (k0 + 1) m1 hlen2 hz2
        by_cases hzc : c + vel.getD k0 0 * sf * dt * 100 > 10
        · rw [if_pos hzc]
          simp only [List.cons_append, List.nil_append]
          rw [e2, e1, e0, getD_cons3, getD_cons3, getD_cons3]
          exact IH
        · rw [if_neg hzc]
          simp only [List.cons_append, List.nil_append]
          rw [e2, e1, e0, getD_cons3, getD_cons3, getD_cons3]
          exact IH

/-- Helper: with an aligned position array (length a multiple of 3) and
enough velocity entries, the bounds-checked loop succeeds and agrees with
the unchecked loop. -/
theorem updateLoopChecked_eq_some (sf dt : ℚ) (rand : ℕ → ℚ × ℚ) (vel : List ℚ) :
    ∀ (ps : List ℚ) (k : ℕ), ps.length % 3 = 0 →
      ps.length + 3 * k ≤ 3 * vel.length →
      updateLoopChecked sf dt rand vel k ps = some (updateLoop sf dt rand vel k ps)
  | [], _, _, _ => rfl
  | [a], _, h3, _ => by simp at h3
  | [a, b], _, h3, _ => by simp at h3
  | a :: b :: c :: rest, k, h3, hlen => by
      simp only [List.length_cons] at h3 hlen
      have hk : k < vel.length := by omega
      obtain ⟨v, hv⟩ : ∃ v, vel.get? k = some v := ⟨_, List.get?_eq_get hk⟩
      have hvd : vel.getD k 0 = v := by
        rw [List.getD_eq_getD_get?, hv]
        rfl
      have hrest : updateLoopChecked sf dt rand vel (k + 1) rest
          = some (updateLoop sf dt rand vel (k + 1) rest) :=
        updateLoopChecked_eq_some sf dt rand vel rest (k + 1) (by omega) (by omega)
      rw [updateLoopChecked_cons3, hv, updateLoop_cons3, hvd, hrest]
      rfl

/-- C9: for every speed, deltaTime, vehicle state and random stream, with
the fixed pool of 1000 particles (3000 flat position entries, 1000
velocities), the per-frame updates are total: the bounds-checked,
division-guarded variants of `Effects.updateParticles` and
`Vehicle.updatePosition` succeed and agree with the unchecked functions
(every index `i`, `i+1`, `i+2`, `i/3` is in range and the only divisors
are the nonzero constants 50 and 3600). -/
theorem update_functions_total (speed dt : ℚ) (rand : ℕ → ℚ × ℚ)
    (positions velocities : List ℚ) (st : VehicleState)
    (hpos : positions.length = 3 * particleCount)
    (hvel : velocities.length = particleCount) :
    updateParticlesChecked speed dt rand positions velocities
        = some (updateParticles speed dt rand positions velocities)
    ∧ updatePositionChecked st dt = some (updatePosition st dt) := by
  constructor
  · unfold updateParticlesChecked updateParticles
    rw [if_neg (by norm_num)]
    exact updateLoopChecked_eq_some (speed / 50) dt rand velocities positions 0
      (by rw [hpos]; norm_num [particleCount])
      (by rw [hpos, hvel]; omega)
  · unfold updatePositionChecked
    rw [if_neg (by norm_num)]

/-- C9 witness: the totality statement at the all-zero pool of 1000
particles, speed 0, deltaTime 0 and the constant-zero random stream. -/
theorem update_functions_total_witness :
    (List.replicate (3 * particleCount) (0 : ℚ)).length = 3 * particleCount
    ∧ (List.replicate particleCount (0 : ℚ)).length = particleCount
    ∧ (updateParticlesChecked 0 0 (fun _ => (0, 0))
          (List.replicate (3 * particleCount) 0) (List.replicate particleCount 0)
        = some (updateParticles 0 0 (fun _ => (0, 0))
          (List.replicate (3 * particleCount) 0) (List.replicate particleCount 0))
      ∧ updatePositionChecked ⟨0, 0⟩ 0 = some (updatePosition ⟨0, 0⟩ 0)) :=
  ⟨by simp, by simp,
    update_functions_total 0 0 (fun _ => (0, 0))
      (List.replicate (3 * particleCount) 0) (List.replicate particleCount 0)
      ⟨0, 0⟩ (by simp) (by simp)⟩

/-- C8: after `Effects.updateParticles(speed, deltaTime)` with
`speed ≥ 0`, `deltaTime ≥ 0` and every random draw in [0, 1), every z
entry of the resulting flat array (index ≡ 2 mod 3) is at most the
despawn threshold 10, and every particle whose advanced z crossed the
threshold (i.e. was respawned during the call) ends with x in [-25, 25],
y in [-15, 15] and z = -100. -/
theorem updateParticles_respawn_invariant (speed dt : ℚ) (rand : ℕ → ℚ × ℚ)
    (positions velocities : List ℚ)
    (hspeed : 0 ≤ speed) (hdt : 0 ≤ dt)
    (hr : ∀ n, 0 ≤ (rand n).1 ∧ (rand n).1 < 1 ∧ 0 ≤ (rand n).2 ∧ (rand n).2 < 1) :
    (∀ j, j % 3 = 2 →
      (updateParticles speed dt rand positions velocities).getD j 0 ≤ 10)
    ∧ (∀ m, 3 * m + 2 < positions.length →
        10 < positions.getD (3 * m + 2) 0
            + velocities.getD m 0 * (speed / 50) * dt * 100 →
        -25 ≤ (updateParticles speed dt rand positions velocities).getD (3 * m) 0
        ∧ (updateParticles speed dt rand positions velocities).getD (3 * m) 0 ≤ 25
        ∧ -15 ≤ (updateParticles speed dt rand positions velocities).getD (3 * m + 1) 0
        ∧ (updateParticles speed dt rand positions velocities).getD (3 * m + 1) 0 ≤ 15
        ∧ (updateParticles speed dt rand positions velocities).getD (3 * m + 2) 0 = -100) := by
  constructor
  · intro j hj
    exact updateLoop_z_le_ten (speed / 50) dt rand velocities positions 0 j hj
  · intro m hm hz
    have hz2 : 10 < positions.getD (3 * m + 2) 0
        + velocities.getD (0 + m) 0 * (speed / 50) * dt * 100 := by
      rw [Nat.zero_add]
      exact hz
    exact updateLoop_respawn_bounds (speed / 50) dt rand velocities hr positions 0 m hm hz2

/-- C8 witness: a one-particle pool at z = 20 with velocity 1, speed 50,
deltaTime 1 and zero random draws: the advanced z is 120 > 10, so the
particle respawns at (-25, -15, -100), inside the spawn volume and below
the threshold. -/
theorem updateParticles_respawn_invariant_witness :
    0 ≤ (50 : ℚ) ∧ 0 ≤ (1 : ℚ)
    ∧ (updateParticles 50 1 (fun _ => (0, 0)) [0, 0, 20] [1]).getD 2 0 ≤ 10
    ∧ -25 ≤ (updateParticles 50 1 (fun _ => (0, 0)) [0, 0, 20] [1]).getD 0 0
    ∧ (updateParticles 50 1 (fun _ => (0, 0)) [0, 0, 20] [1]).getD 0 0 ≤ 25
    ∧ -15 ≤ (updateParticles 50 1 (fun _ => (0, 0)) [0, 0, 20] [1]).getD 1 0
    ∧ (updateParticles 50 1 (fun _ => (0, 0)) [0, 0, 20] [1]).getD 1 0 ≤ 15
    ∧ (updateParticles 50 1 (fun _ => (0, 0)) [0, 0, 20] [1]).getD 2 0 = -100 := by
  have hr : ∀ n : ℕ, 0 ≤ ((fun _ : ℕ => ((0 : ℚ), (0 : ℚ))) n).1
      ∧ ((fun _ : ℕ => ((0 : ℚ), (0 : ℚ))) n).1 < 1
      ∧ 0 ≤ ((fun _ : ℕ => ((0 : ℚ), (0 : ℚ))) n).2
      ∧ ((fun _ : ℕ => ((0 : ℚ), (0 : ℚ))) n).2 < 1 :=
    fun _ => ⟨by norm_num, by norm_num, by norm_num, by norm_num⟩
  have hmain := updateParticles_respawn_invariant 50 1 (fun _ => (0, 0))
    [0, 0, 20] [1] (by norm_num) (by norm_num) hr
  have hcross : 10 < ([(0 : ℚ), 0, 20]).getD (3 * 0 + 2) 0
      + ([(1 : ℚ)]).getD 0 0 * ((50 : ℚ) / 50) * 1 * 100 := by
    show (10 : ℚ) < 20 + 1 * (50 / 50) * 1 * 100
    norm_num
  have hresp := hmain.2 0 (by norm_num) hcross
  exact ⟨by norm_num, by norm_num, hmain.1 2 rfl,
    hresp.1, hresp.2.1, hresp.2.2.1, hresp.2.2.2.1, hresp.2.2.2.2⟩
